import Mathlib

/-!
Shallow embedding of the video-transcription pipeline:
the server coordinator (src/app/api/process/route.ts) and the client-side
frame sampler and audio extractor (src/app/page.tsx).

External services (speech-to-text, vision judgment) are passed as oracles of
type `String → Except String _`: `.error` models the wrapped call throwing.
The SSE sink (the ReadableStream controller) is modelled by an optional break
point `breakAt : Option Nat`: `some k` means the sink accepts the first `k`
enqueues and every later enqueue throws (per Web Streams semantics, enqueue on
a cancelled stream throws a TypeError); `none` is a healthy sink.
-/

namespace VideoPipeline

/-- A sampled video frame, as sent in the request body
(`{timestamp: number, dataUrl: string}`). -/
structure Frame where
  timestamp : Int
  dataUrl : String
  deriving Repr, DecidableEq

/-- A classifier-accepted frame, as placed in the `slides` accumulator
(`{image: frame.dataUrl, timestamp: frame.timestamp}`). -/
structure Slide where
  image : String
  timestamp : Int
  deriving Repr, DecidableEq

/-- One server-sent event, the JSON payloads written as
`data: {type: progress|complete|error, ...}`. -/
inductive Event where
  | progress (message : String)
  | complete (transcription : String) (slides : List Slide)
  | error (message : String)
  deriving Repr, DecidableEq

/-- `transcribeAudio` from route.ts: the whole body is one `try` around the
wrapped speech-to-text call `stt`; on any failure it returns the bracketed
sentinel built from the error message. -/
def transcribeAudio (audioDataUrl : String) (stt : String → Except String String) : String :=
  match stt audioDataUrl with
  | .ok transcription => transcription
  | .error e => "[Transcription unavailable: " ++ e ++ "]"

/-- `analyzeFrame` from route.ts: sends the frame to the vision judge; the
response content is optional (`response.choices[0]?.message?.content?`), and
the answer is accepted iff `content.trim().toUpperCase() === 'YES'`; any
thrown failure yields `false`. -/
def analyzeFrame (frameDataUrl : String) (vision : String → Except String (Option String)) : Bool :=
  match vision frameDataUrl with
  | .ok (some answer) => answer.trim.toUpper == "YES"
  | .ok none => false
  | .error _ => false

/-- Observable state of one run of `POST`: the events successfully enqueued on
the stream (in order), whether the stream was closed, how many times the
transcription adapter was invoked, the frames passed to the classifier (in
order), and the accumulated `slides` array. -/
structure RunState where
  events : List Event
  closed : Bool
  transcribeCalls : Nat
  classified : List Frame
  slides : List Slide
  deriving Repr, DecidableEq

def RunState.init : RunState :=
  { events := [], closed := false, transcribeCalls := 0, classified := [], slides := [] }

/-- `controller.enqueue`: appends the event, unless the sink has broken
(`breakAt = some k` and `k` events were already accepted), in which case it
throws; the thrown error carries the state at the throw point. -/
def enqueue (breakAt : Option Nat) (s : RunState) (e : Event) :
    Except (String × RunState) RunState :=
  match breakAt with
  | none => .ok { s with events := s.events ++ [e] }
  | some k =>
    if s.events.length < k then .ok { s with events := s.events ++ [e] }
    else .error ("sink broken", s)

/-- The classification loop of `POST` (route.ts lines 97-109), over the frames
at indices `0 .. min(frames.length, 20) - 1`: per frame, enqueue a progress
event, call `analyzeFrame`, and push accepted frames onto `slides`. -/
def processFrames (breakAt : Option Nat) (vision : String → Except String (Option String))
    (total : Nat) : List Frame → Nat → RunState → Except (String × RunState) RunState
  | [], _, s => .ok s
  | frame :: rest, i, s =>
    match enqueue breakAt s
        (.progress ("Analyzing frame " ++ toString (i + 1) ++ "/" ++ toString total ++ "...")) with
    | .error err => .error err
    | .ok s1 =>
      let s2 := { s1 with classified := s1.classified ++ [frame] }
      let s3 :=
        if analyzeFrame frame.dataUrl vision then
          { s2 with slides := s2.slides ++ [{ image := frame.dataUrl, timestamp := frame.timestamp }] }
        else s2
      processFrames breakAt vision total rest (i + 1) s3

/-- The parsed request body; both fields are optional since the JSON may omit
them. -/
structure Body where
  audioDataUrl : Option String
  frames : Option (List Frame)

/-- JavaScript truthiness of the `audioDataUrl` field: `!audioDataUrl` is true
when the field is absent or the empty string. -/
def jsFalsyString : Option String → Bool
  | none => true
  | some s => s == ""

/-- The guard `!audioDataUrl || !frames` of route.ts line 84; an array is
always truthy in JavaScript, so only an absent `frames` is falsy. -/
def missingInput (b : Body) : Bool :=
  jsFalsyString b.audioDataUrl || b.frames.isNone

/-- The `try` block of `POST`'s stream `start` callback: parse the body
(`request.json()` may throw), validate, transcribe, classify the first
`min(frames.length, 20)` frames, and enqueue the terminal `complete` event.
A `.error` result is a thrown exception carrying the state so far. -/
def tryBody (breakAt : Option Nat) (reqJson : Except String Body)
    (stt : String → Except String String)
    (vision : String → Except String (Option String)) :
    Except (String × RunState) RunState :=
  match reqJson with
  | .error e => .error (e, RunState.init)
  | .ok body =>
    if missingInput body then
      match enqueue breakAt RunState.init (.error "Missing audio or frames data") with
      | .error err => .error err
      | .ok s => .ok { s with closed := true }
    else
      let audioDataUrl := body.audioDataUrl.getD ""
      let frames := body.frames.getD []
      match enqueue breakAt RunState.init (.progress "Transcribing audio...") with
      | .error err => .error err
      | .ok s =>
        let transcription := transcribeAudio audioDataUrl stt
        let s := { s with transcribeCalls := s.transcribeCalls + 1 }
        match enqueue breakAt s (.progress "Analyzing frames for slides...") with
        | .error err => .error err
        | .ok s =>
          match processFrames breakAt vision (min frames.length 20)
              (frames.take (min frames.length 20)) 0 s with
          | .error err => .error err
          | .ok s =>
            match enqueue breakAt s (.complete transcription s.slides) with
            | .error err => .error err
            | .ok s => .ok s

/-- `POST` of route.ts: run the `try` block; on a thrown exception the `catch`
enqueues an `error` event with `error.message || 'Processing failed'` (that
enqueue may itself throw on a broken sink, and the exception then escapes);
the `finally` closes the stream on every path. -/
def POST (breakAt : Option Nat) (reqJson : Except String Body)
    (stt : String → Except String String)
    (vision : String → Except String (Option String)) : RunState :=
  match tryBody breakAt reqJson stt vision with
  | .ok s => { s with closed := true }
  | .error (msg, s) =>
    let errMessage := if msg == "" then "Processing failed" else msg
    match enqueue breakAt s (.error errMessage) with
    | .ok s2 => { s2 with closed := true }
    | .error (_, s2) => { s2 with closed := true }

/-- The state an exception-or-normal outcome leaves behind. -/
def resultState : Except (String × RunState) RunState → RunState
  | .ok s => s
  | .error (_, s) => s

/-! ### Frame sampler (src/app/page.tsx, `extractFramesFromVideo`) -/

/-- `extractFramesFromVideo` from page.tsx: starting at `currentTime = 0`,
capture a frame (timestamp `Math.floor(currentTime)`, image read from the
canvas, modelled by the `capture` oracle), advance by the 5-second
`captureInterval`, and stop as soon as `currentTime >= video.duration`.
The duration is a rational, as `video.duration` is fractional in general. -/
def sampleFrames (capture : ℚ → String) (duration : ℚ) (currentTime : ℚ) : List Frame :=
  if h : currentTime ≥ duration then []
  else
    { timestamp := ⌊currentTime⌋, dataUrl := capture currentTime } ::
      sampleFrames capture duration (currentTime + 5)
termination_by (⌈duration - currentTime⌉).toNat
decreasing_by
  have h1 : (0 : ℚ) < duration - currentTime := by
    have := not_le.mp h
    linarith
  have h2 : (0 : ℤ) < ⌈duration - currentTime⌉ := Int.ceil_pos.mpr h1
  have h3 : ⌈duration - (currentTime + 5)⌉ = ⌈duration - currentTime⌉ - 5 := by
    have e : duration - (currentTime + 5) = duration - currentTime - ((5 : ℤ) : ℚ) := by
      push_cast; ring
    rw [e, Int.ceil_sub_int]
  omega

/-! ### Audio extractor (src/app/page.tsx, `extractAudioFromVideo`) -/

/-- Recorder lifecycle states of the MediaRecorder used by the extractor. -/
inductive RecorderState where
  | recording
  | inactive
  deriving Repr, DecidableEq

/-- Observable state of one audio extraction: the recorder state, how many
times `onstop` fired (each firing assembles the accumulated chunks into one
AudioPayload and resolves the extractor's promise), and whether the video was
paused. -/
structure ExtractorState where
  recorder : RecorderState
  payloadsEmitted : Nat
  videoPaused : Bool
  deriving Repr, DecidableEq

/-- `mediaRecorder.stop()` with the MediaRecorder platform semantics: on an
inactive recorder the call is a no-op (the stop algorithm aborts when state is
inactive); on a recording recorder it transitions to inactive and fires
`onstop` exactly once, emitting the AudioPayload. -/
def mediaRecorderStop (s : ExtractorState) : ExtractorState :=
  match s.recorder with
  | .inactive => s
  | .recording => { s with recorder := .inactive, payloadsEmitted := s.payloadsEmitted + 1 }

/-- The `video.onended` handler (page.tsx line 61): unconditionally calls
`mediaRecorder.stop()`. -/
def onEnded (s : ExtractorState) : ExtractorState := mediaRecorderStop s

/-- The timeout fallback (page.tsx lines 66-71): fires at duration + 1s; only
if the recorder is still recording does it stop the recorder and pause the
video. -/
def timeoutFallback (s : ExtractorState) : ExtractorState :=
  if s.recorder == .recording then
    let s1 := mediaRecorderStop s
    { s1 with videoPaused := true }
  else s

/-- State right after `mediaRecorder.start()` and `video.play()`. -/
def extractorStart : ExtractorState :=
  { recorder := .recording, payloadsEmitted := 0, videoPaused := false }

/-! ### Derived descriptions used to state the theorems -/

/-- The per-frame progress events the classification loop enqueues for the
frame list `l` starting at loop index `i`. -/
def frameProgressEvents (total : Nat) : List Frame → Nat → List Event
  | [], _ => []
  | _ :: rest, i =>
    .progress ("Analyzing frame " ++ toString (i + 1) ++ "/" ++ toString total ++ "...") ::
      frameProgressEvents total rest (i + 1)

/-- The slides the classification loop accumulates for the frame list `l`:
exactly the frames the classifier accepts, in order, with image and timestamp
copied verbatim. -/
def slidesOf (vision : String → Except String (Option String)) (l : List Frame) : List Slide :=
  (l.filter fun f => analyzeFrame f.dataUrl vision).map
    fun f => { image := f.dataUrl, timestamp := f.timestamp }

end VideoPipeline

namespace VideoPipeline

/-! ### Helper lemmas about the classification loop and the coordinator -/

theorem processFrames_none (vision : String → Except String (Option String)) (total : Nat) :
    ∀ (l : List Frame) (i : Nat) (s : RunState),
      processFrames none vision total l i s = .ok
        { s with
          events := s.events ++ frameProgressEvents total l i,
          classified := s.classified ++ l,
          slides := s.slides ++ slidesOf vision l } := by
  intro l
  induction l with
  | nil => intro i s; simp [processFrames, frameProgressEvents, slidesOf]
  | cons f rest ih =>
    intro i s
    rw [processFrames]
    simp only [enqueue]
    cases hf : analyzeFrame f.dataUrl vision <;>
      simp [hf, ih, frameProgressEvents, slidesOf, List.filter_cons, hf]

theorem frameProgressEvents_progress (total : Nat) :
    ∀ (l : List Frame) (i : Nat) (e : Event), e ∈ frameProgressEvents total l i →
      ∃ m, e = Event.progress m := by
  intro l
  induction l with
  | nil => intro i e he; simp [frameProgressEvents] at he
  | cons f rest ih =>
    intro i e he
    rw [frameProgressEvents] at he
    rcases List.mem_cons.mp he with h | h
    · exact ⟨_, h⟩
    · exact ih (i + 1) e h

theorem tryBody_valid_none (a : String) (fs : List Frame)
    (stt : String → Except String String) (vision : String → Except String (Option String))
    (ha : (a == "") = false) :
    tryBody none (.ok ⟨some a, some fs⟩) stt vision = .ok
      { events := Event.progress "Transcribing audio..." ::
          Event.progress "Analyzing frames for slides..." ::
          (frameProgressEvents (min fs.length 20) (fs.take (min fs.length 20)) 0 ++
            [Event.complete (transcribeAudio a stt) (slidesOf vision (fs.take (min fs.length 20)))]),
        closed := false,
        transcribeCalls := 1,
        classified := fs.take (min fs.length 20),
        slides := slidesOf vision (fs.take (min fs.length 20)) } := by
  simp [tryBody, missingInput, jsFalsyString, ha, enqueue, RunState.init, processFrames_none]

theorem POST_valid_none (a : String) (fs : List Frame)
    (stt : String → Except String String) (vision : String → Except String (Option String))
    (ha : (a == "") = false) :
    POST none (.ok ⟨some a, some fs⟩) stt vision =
      { events := Event.progress "Transcribing audio..." ::
          Event.progress "Analyzing frames for slides..." ::
          (frameProgressEvents (min fs.length 20) (fs.take (min fs.length 20)) 0 ++
            [Event.complete (transcribeAudio a stt) (slidesOf vision (fs.take (min fs.length 20)))]),
        closed := true,
        transcribeCalls := 1,
        classified := fs.take (min fs.length 20),
        slides := slidesOf vision (fs.take (min fs.length 20)) } := by
  rw [POST, tryBody_valid_none a fs stt vision ha]

theorem POST_missing_none (b : Body) (stt : String → Except String String)
    (vision : String → Except String (Option String)) (hb : missingInput b = true) :
    POST none (.ok b) stt vision =
      { events := [Event.error "Missing audio or frames data"], closed := true,
        transcribeCalls := 0, classified := [], slides := [] } := by
  simp [POST, tryBody, hb, enqueue, RunState.init]

theorem POST_parse_error_none (e : String) (stt : String → Except String String)
    (vision : String → Except String (Option String)) :
    POST none (.error e) stt vision =
      { events := [Event.error (if e == "" then "Processing failed" else e)], closed := true,
        transcribeCalls := 0, classified := [], slides := [] } := by
  simp [POST, tryBody, enqueue, RunState.init]

theorem enqueue_ok_inv (breakAt : Option Nat) (s : RunState) (e : Event) (s2 : RunState)
    (h : enqueue breakAt s e = .ok s2) : s2 = { s with events := s.events ++ [e] } := by
  cases breakAt with
  | none =>
    rw [enqueue] at h
    injection h with h
    exact h.symm
  | some k =>
    rw [enqueue] at h
    split at h
    · injection h with h
      exact h.symm
    · simp at h

theorem enqueue_error_inv (breakAt : Option Nat) (s : RunState) (e : Event)
    (err : String × RunState) (h : enqueue breakAt s e = .error err) : err.2 = s := by
  cases breakAt with
  | none => simp [enqueue] at h
  | some k =>
    rw [enqueue] at h
    split at h
    · simp at h
    · injection h with h
      rw [← h]

theorem POST_closed (breakAt : Option Nat) (reqJson : Except String Body)
    (stt : String → Except String String) (vision : String → Except String (Option String)) :
    (POST breakAt reqJson stt vision).closed = true := by
  rw [POST]
  split
  · rfl
  · dsimp only
    split <;> rfl

theorem POST_classified_eq (breakAt : Option Nat) (reqJson : Except String Body)
    (stt : String → Except String String) (vision : String → Except String (Option String)) :
    (POST breakAt reqJson stt vision).classified =
      (resultState (tryBody breakAt reqJson stt vision)).classified := by
  rw [POST]
  split
  · rename_i s heq
    rw [heq]
    rfl
  · rename_i msg s heq
    rw [heq]
    dsimp only [resultState]
    split
    · rename_i s2 heq2
      simp [enqueue_ok_inv _ _ _ _ heq2]
    · rename_i m2 s2 heq2
      have h3 := enqueue_error_inv _ _ _ _ heq2
      simp at h3
      simp [h3]

theorem processFrames_broken_classified (vision : String → Except String (Option String))
    (total k : Nat) :
    ∀ (l : List Frame) (i : Nat) (s : RunState),
      (resultState (processFrames (some k) vision total l i s)).classified =
        s.classified ++ l.take (k - s.events.length) := by
  intro l
  induction l with
  | nil => intro i s; simp [processFrames, resultState]
  | cons f rest ih =>
    intro i s
    rw [processFrames]
    by_cases h : s.events.length < k
    · simp only [enqueue, h, if_true]
      rw [ih]
      have e1 : k - s.events.length = (k - (s.events.length + 1)) + 1 := by omega
      cases hf : analyzeFrame f.dataUrl vision <;>
        simp [hf, e1, List.take_succ_cons, List.length_append]
    · simp only [enqueue, h, if_false]
      have e0 : k - s.events.length = 0 := by omega
      simp [resultState, e0]

theorem tryBody_broken_classified (k : Nat) (a : String) (fs : List Frame)
    (stt : String → Except String String) (vision : String → Except String (Option String))
    (ha : (a == "") = false) :
    (resultState (tryBody (some k) (.ok ⟨some a, some fs⟩) stt vision)).classified =
      (fs.take (min fs.length 20)).take (k - 2) := by
  match k with
  | 0 => simp [tryBody, missingInput, jsFalsyString, ha, enqueue, RunState.init, resultState]
  | 1 => simp [tryBody, missingInput, jsFalsyString, ha, enqueue, RunState.init, resultState]
  | n + 2 =>
    have h0 : 0 < n + 2 := by omega
    have h1 : 1 < n + 2 := by omega
    have hsub : n + 2 - 2 = n := by omega
    rw [tryBody]
    simp only [missingInput, jsFalsyString, ha, Option.isNone_some, Bool.or_false,
      Bool.false_eq_true, if_false, Option.getD_some, enqueue, RunState.init,
      List.length_nil, h0, if_true, List.nil_append, List.length_cons, Nat.zero_add, h1, hsub]
    split
    · rename_i err heq
      obtain ⟨m, s1⟩ := err
      have hc := congrArg (fun r => (resultState r).classified) heq
      beta_reduce at hc
      rw [processFrames_broken_classified] at hc
      simp [resultState, hsub] at hc
      simpa [resultState] using hc.symm
    · rename_i s1 heq
      have hc := congrArg (fun r => (resultState r).classified) heq
      beta_reduce at hc
      rw [processFrames_broken_classified] at hc
      simp [resultState, hsub] at hc
      split
      · rename_i err2 heq2
        split at heq2
        · simp at heq2
        · injection heq2 with heq2
          rw [← heq2]
          simpa [resultState] using hc.symm
      · rename_i s2 heq2
        split at heq2
        · injection heq2 with heq2
          rw [← heq2]
          simpa [resultState] using hc.symm
        · simp at heq2

/-! ### Claims about the coordinator -/

/-- Claim C1: on a valid request with `n` frames, the coordinator classifies
exactly the frames at indices `0 .. min(n, 20) - 1` in order (frames at index
20 and beyond are never passed to the classifier), and `slides` is the
order-preserving subsequence of those frames on which the classifier returned
true, with image and timestamp copied verbatim; hence
`slides.length ≤ min(n, 20)`. -/
theorem claim1_classification_cap (a : String) (fs : List Frame)
    (stt : String → Except String String) (vision : String → Except String (Option String))
    (ha : a ≠ "") :
    (POST none (.ok ⟨some a, some fs⟩) stt vision).classified = fs.take (min fs.length 20) ∧
    (POST none (.ok ⟨some a, some fs⟩) stt vision).slides =
      ((fs.take (min fs.length 20)).filter fun f => analyzeFrame f.dataUrl vision).map
        (fun f => { image := f.dataUrl, timestamp := f.timestamp }) ∧
    (POST none (.ok ⟨some a, some fs⟩) stt vision).slides.length ≤ min fs.length 20 := by
  have ha' : (a == "") = false := beq_eq_false_iff_ne.mpr ha
  rw [POST_valid_none a fs stt vision ha']
  refine ⟨rfl, rfl, ?_⟩
  have h1 := List.length_filter_le (fun f => analyzeFrame f.dataUrl vision)
    (fs.take (min fs.length 20))
  have h2 : (fs.take (min fs.length 20)).length = min (min fs.length 20) fs.length :=
    List.length_take _ _
  simp only [slidesOf, List.length_map]
  omega

/-- Witness for C1 at a concrete valid request. -/
theorem claim1_classification_cap_witness :
    ("a" : String) ≠ "" ∧
    ((POST none (.ok ⟨some "a", some []⟩) (fun _ => .ok "t") (fun _ => .error "x")).classified
        = ([] : List Frame).take (min ([] : List Frame).length 20) ∧
      (POST none (.ok ⟨some "a", some []⟩) (fun _ => .ok "t") (fun _ => .error "x")).slides =
        ((([] : List Frame).take (min ([] : List Frame).length 20)).filter
            fun f => analyzeFrame f.dataUrl (fun _ => .error "x")).map
          (fun f => { image := f.dataUrl, timestamp := f.timestamp }) ∧
      (POST none (.ok ⟨some "a", some []⟩) (fun _ => .ok "t") (fun _ => .error "x")).slides.length
        ≤ min ([] : List Frame).length 20) :=
  ⟨by decide, claim1_classification_cap "a" [] (fun _ => .ok "t") (fun _ => .error "x") (by decide)⟩

/-- Claim C2: with a healthy sink, every run emits zero or more progress
events followed by exactly one terminal event (one `complete` or one `error`,
never both, never more than one); and on every exit path, healthy or broken
sink, success or failure, the stream ends closed. -/
theorem claim2_event_protocol (reqJson : Except String Body)
    (stt : String → Except String String) (vision : String → Except String (Option String)) :
    (∃ ps t, (POST none reqJson stt vision).events = ps ++ [t] ∧
      (∀ e ∈ ps, ∃ m, e = Event.progress m) ∧
      ((∃ tr sl, t = Event.complete tr sl) ∨ (∃ m, t = Event.error m))) ∧
    (∀ breakAt, (POST breakAt reqJson stt vision).closed = true) := by
  refine ⟨?_, fun breakAt => POST_closed breakAt reqJson stt vision⟩
  match reqJson with
  | .error e =>
    rw [POST_parse_error_none]
    exact ⟨[], _, rfl, by simp, Or.inr ⟨_, rfl⟩⟩
  | .ok b =>
    by_cases hb : missingInput b = true
    · rw [POST_missing_none b stt vision hb]
      exact ⟨[], _, rfl, by simp, Or.inr ⟨_, rfl⟩⟩
    · obtain ⟨oa, ofs⟩ := b
      simp only [missingInput, Bool.or_eq_true, not_or, Bool.not_eq_true, Option.isNone_eq_false_iff] at hb
      obtain ⟨hfalsy, hframes⟩ := hb
      match oa, ofs, hfalsy, hframes with
      | some a, some fs, hfalsy, _ =>
        rw [jsFalsyString] at hfalsy
        rw [POST_valid_none a fs stt vision hfalsy]
        refine ⟨Event.progress "Transcribing audio..." ::
            Event.progress "Analyzing frames for slides..." ::
            frameProgressEvents (min fs.length 20) (fs.take (min fs.length 20)) 0,
          Event.complete (transcribeAudio a stt) (slidesOf vision (fs.take (min fs.length 20))),
          by simp, ?_, Or.inl ⟨_, _, rfl⟩⟩
        intro e he
        rcases List.mem_cons.mp he with h | h
        · exact ⟨_, h⟩
        rcases List.mem_cons.mp h with h | h
        · exact ⟨_, h⟩
        · exact frameProgressEvents_progress _ _ _ _ h

/-- Claim C3: the transcription adapter never throws: when the wrapped
speech-to-text call fails, it returns the bracketed sentinel containing the
failure reason, the run treats this as successful stage completion, frame
classification still runs in full, and the run still reaches a `complete`
event carrying the sentinel transcript. -/
theorem claim3_transcription_degrades (a e : String) (fs : List Frame)
    (vision : String → Except String (Option String)) (ha : a ≠ "") :
    transcribeAudio a (fun _ => .error e) = "[Transcription unavailable: " ++ e ++ "]" ∧
    (∃ ps sl, (POST none (.ok ⟨some a, some fs⟩) (fun _ => .error e) vision).events =
      ps ++ [Event.complete ("[Transcription unavailable: " ++ e ++ "]") sl]) ∧
    (POST none (.ok ⟨some a, some fs⟩) (fun _ => .error e) vision).classified =
      fs.take (min fs.length 20) := by
  have ha' : (a == "") = false := beq_eq_false_iff_ne.mpr ha
  have hs : transcribeAudio a (fun _ => Except.error e) =
      "[Transcription unavailable: " ++ e ++ "]" := rfl
  refine ⟨hs, ?_, ?_⟩
  · rw [POST_valid_none a fs _ vision ha']
    exact ⟨Event.progress "Transcribing audio..." ::
      Event.progress "Analyzing frames for slides..." ::
      frameProgressEvents (min fs.length 20) (fs.take (min fs.length 20)) 0,
      slidesOf vision (fs.take (min fs.length 20)), by simp [hs]⟩
  · rw [POST_valid_none a fs _ vision ha']

/-- Witness for C3 at a concrete failing speech-to-text call. -/
theorem claim3_transcription_degrades_witness :
    ("a" : String) ≠ "" ∧
    (transcribeAudio "a" (fun _ => .error "boom") = "[Transcription unavailable: " ++ "boom" ++ "]" ∧
      (∃ ps sl, (POST none (.ok ⟨some "a", some []⟩) (fun _ => .error "boom")
          (fun _ => .error "x")).events =
        ps ++ [Event.complete ("[Transcription unavailable: " ++ "boom" ++ "]") sl]) ∧
      (POST none (.ok ⟨some "a", some []⟩) (fun _ => .error "boom")
          (fun _ => .error "x")).classified =
        ([] : List Frame).take (min ([] : List Frame).length 20)) :=
  ⟨by decide, claim3_transcription_degrades "a" "boom" [] (fun _ => .error "x") (by decide)⟩

/-- Claim C4: the classifier adapter returns true iff the judge's response,
trimmed and upper-cased, is exactly the affirmative token "YES"; an absent
response and a thrown failure both yield false; and one frame's rejection or
failure never short-circuits the loop: every frame handed to the loop is still
classified and the state threads through. -/
theorem claim4_classifier_normalization (d : String)
    (vision : String → Except String (Option String))
    (total : Nat) (l : List Frame) (i : Nat) (s : RunState) :
    (analyzeFrame d vision = true ↔
      ∃ ans, vision d = .ok (some ans) ∧ ans.trim.toUpper = "YES") ∧
    (∃ s2, processFrames none vision total l i s = .ok s2 ∧
      s2.classified = s.classified ++ l ∧
      s2.slides = s.slides ++ slidesOf vision l) := by
  constructor
  · rw [analyzeFrame]
    cases hv : vision d with
    | ok o =>
      cases o with
      | some ans => simp
      | none => simp
    | error err => simp
  · exact ⟨_, processFrames_none vision total l i s, rfl, rfl⟩

/-- Claim C5: a request body missing `audioDataUrl` or missing `frames` emits
exactly one `error` event, no `progress` and no `complete` events, never
invokes transcription or any classification, and the stream is closed. -/
theorem claim5_missing_input (b : Body) (stt : String → Except String String)
    (vision : String → Except String (Option String))
    (h : b.audioDataUrl = none ∨ b.frames = none) :
    (POST none (.ok b) stt vision).events = [Event.error "Missing audio or frames data"] ∧
    (POST none (.ok b) stt vision).transcribeCalls = 0 ∧
    (POST none (.ok b) stt vision).classified = [] ∧
    (POST none (.ok b) stt vision).closed = true := by
  have hb : missingInput b = true := by
    rcases h with h | h <;> simp [missingInput, jsFalsyString, h]
  rw [POST_missing_none b stt vision hb]
  exact ⟨rfl, rfl, rfl, rfl⟩

/-- Witness for C5 at a concrete body with both fields absent. -/
theorem claim5_missing_input_witness :
    ((⟨none, none⟩ : Body).audioDataUrl = none ∨ (⟨none, none⟩ : Body).frames = none) ∧
    ((POST none (.ok ⟨none, none⟩) (fun _ => .ok "") (fun _ => .error "")).events =
        [Event.error "Missing audio or frames data"] ∧
      (POST none (.ok ⟨none, none⟩) (fun _ => .ok "") (fun _ => .error "")).transcribeCalls = 0 ∧
      (POST none (.ok ⟨none, none⟩) (fun _ => .ok "") (fun _ => .error "")).classified = [] ∧
      (POST none (.ok ⟨none, none⟩) (fun _ => .ok "") (fun _ => .error "")).closed = true) :=
  ⟨Or.inl rfl, claim5_missing_input ⟨none, none⟩ (fun _ => .ok "") (fun _ => .error "") (Or.inl rfl)⟩

/-- Claim C9: if the sink breaks after accepting `k` events (the caller
disconnected; per stream semantics every later enqueue throws), the run
classifies exactly the frames whose progress notification was still accepted:
the first `k - 2` of the (at most 20) eligible frames. Once the sink is
broken, no further frame is ever passed to the classifier. -/
theorem claim9_broken_sink_aborts (k : Nat) (a : String) (fs : List Frame)
    (stt : String → Except String String) (vision : String → Except String (Option String))
    (ha : a ≠ "") :
    (POST (some k) (.ok ⟨some a, some fs⟩) stt vision).classified =
      (fs.take (min fs.length 20)).take (k - 2) := by
  rw [POST_classified_eq,
    tryBody_broken_classified k a fs stt vision (beq_eq_false_iff_ne.mpr ha)]

/-- Witness for C9: sink breaks after 3 events, so of three frames only the
first is classified. -/
theorem claim9_broken_sink_aborts_witness :
    ("a" : String) ≠ "" ∧
    (POST (some 3) (.ok ⟨some "a", some [⟨0, "f0"⟩, ⟨5, "f1"⟩, ⟨10, "f2"⟩]⟩)
        (fun _ => .ok "t") (fun _ => .error "x")).classified =
      (([⟨0, "f0"⟩, ⟨5, "f1"⟩, ⟨10, "f2"⟩] : List Frame).take
          (min ([⟨0, "f0"⟩, ⟨5, "f1"⟩, ⟨10, "f2"⟩] : List Frame).length 20)).take (3 - 2) :=
  ⟨by decide, claim9_broken_sink_aborts 3 "a" [⟨0, "f0"⟩, ⟨5, "f1"⟩, ⟨10, "f2"⟩]
    (fun _ => .ok "t") (fun _ => .error "x") (by decide)⟩

/-- Claim C10: validation is by JavaScript falsiness: a present-but-empty
`frames` array is accepted (the run transcribes once, classifies nothing, and
completes with an empty slides list), while a present-but-empty `audioDataUrl`
string is rejected with the missing-input error event. -/
theorem claim10_falsy_validation (a : String) (fs : List Frame)
    (stt : String → Except String String) (vision : String → Except String (Option String))
    (ha : a ≠ "") :
    ((POST none (.ok ⟨some a, some []⟩) stt vision).events =
        [Event.progress "Transcribing audio...", Event.progress "Analyzing frames for slides...",
         Event.complete (transcribeAudio a stt) []] ∧
      (POST none (.ok ⟨some a, some []⟩) stt vision).transcribeCalls = 1 ∧
      (POST none (.ok ⟨some a, some []⟩) stt vision).classified = [] ∧
      (POST none (.ok ⟨some a, some []⟩) stt vision).slides = []) ∧
    ((POST none (.ok ⟨some "", some fs⟩) stt vision).events =
        [Event.error "Missing audio or frames data"] ∧
      (POST none (.ok ⟨some "", some fs⟩) stt vision).transcribeCalls = 0 ∧
      (POST none (.ok ⟨some "", some fs⟩) stt vision).classified = []) := by
  have ha' : (a == "") = false := beq_eq_false_iff_ne.mpr ha
  constructor
  · rw [POST_valid_none a [] stt vision ha']
    refine ⟨?_, rfl, by simp, by simp [slidesOf]⟩
    simp [frameProgressEvents, slidesOf]
  · rw [POST_missing_none ⟨some "", some fs⟩ stt vision (by simp [missingInput, jsFalsyString])]
    exact ⟨rfl, rfl, rfl⟩

/-- Witness for C10 at concrete inputs. -/
theorem claim10_falsy_validation_witness :
    ("a" : String) ≠ "" ∧
    (((POST none (.ok ⟨some "a", some []⟩) (fun _ => .ok "t") (fun _ => .error "x")).events =
        [Event.progress "Transcribing audio...", Event.progress "Analyzing frames for slides...",
         Event.complete (transcribeAudio "a" (fun _ => .ok "t")) []] ∧
      (POST none (.ok ⟨some "a", some []⟩) (fun _ => .ok "t") (fun _ => .error "x")).transcribeCalls = 1 ∧
      (POST none (.ok ⟨some "a", some []⟩) (fun _ => .ok "t") (fun _ => .error "x")).classified = [] ∧
      (POST none (.ok ⟨some "a", some []⟩) (fun _ => .ok "t") (fun _ => .error "x")).slides = []) ∧
    ((POST none (.ok ⟨some "", some []⟩) (fun _ => .ok "t") (fun _ => .error "x")).events =
        [Event.error "Missing audio or frames data"] ∧
      (POST none (.ok ⟨some "", some []⟩) (fun _ => .ok "t") (fun _ => .error "x")).transcribeCalls = 0 ∧
      (POST none (.ok ⟨some "", some []⟩) (fun _ => .ok "t") (fun _ => .error "x")).classified = [])) :=
  ⟨by decide, claim10_falsy_validation "a" [] (fun _ => .ok "t") (fun _ => .error "x") (by decide)⟩

/-! ### Helper lemmas about the frame sampler -/

theorem sampleFrames_stop (capture : ℚ → String) (duration t : ℚ) (h : t ≥ duration) :
    sampleFrames capture duration t = [] := by
  rw [sampleFrames]
  simp [h]

theorem sampleFrames_step (capture : ℚ → String) (duration t : ℚ) (h : ¬t ≥ duration) :
    sampleFrames capture duration t =
      { timestamp := ⌊t⌋, dataUrl := capture t } :: sampleFrames capture duration (t + 5) := by
  rw [sampleFrames]
  simp [h]

theorem sampleFrames_length_aux (capture : ℚ → String) (duration : ℚ) :
    ∀ (n : ℕ) (t : ℚ), (⌈duration - t⌉).toNat ≤ n →
      (sampleFrames capture duration t).length = (⌈(duration - t) / 5⌉).toNat := by
  intro n
  induction n with
  | zero =>
    intro t ht
    have hd : t ≥ duration := by
      by_contra hc
      push_neg at hc
      have h2 : (0 : ℤ) < ⌈duration - t⌉ := Int.ceil_pos.mpr (by linarith)
      omega
    rw [sampleFrames_stop capture duration t hd]
    have h3 : ⌈(duration - t) / 5⌉ ≤ 0 := by
      apply Int.ceil_le.mpr
      push_cast
      rw [div_nonpos_iff]
      right
      constructor <;> linarith
    simp only [List.length_nil]
    omega
  | succ n ih =>
    intro t ht
    by_cases h : t ≥ duration
    · rw [sampleFrames_stop capture duration t h]
      have h3 : ⌈(duration - t) / 5⌉ ≤ 0 := by
        apply Int.ceil_le.mpr
        push_cast
        rw [div_nonpos_iff]
        right
        constructor <;> linarith
      simp only [List.length_nil]
      omega
    · push_neg at h
      rw [sampleFrames_step capture duration t (by linarith)]
      rw [List.length_cons]
      have hceil : ⌈duration - (t + 5)⌉ = ⌈duration - t⌉ - 5 := by
        have e : duration - (t + 5) = duration - t - ((5 : ℤ) : ℚ) := by push_cast; ring
        rw [e, Int.ceil_sub_int]
      have hpos : (0 : ℤ) < ⌈duration - t⌉ := Int.ceil_pos.mpr (by linarith)
      rw [ih (t + 5) (by omega)]
      have e2 : (duration - (t + 5)) / 5 = (duration - t) / 5 - 1 := by ring
      rw [e2, Int.ceil_sub_one]
      have hpos2 : (0 : ℤ) < ⌈(duration - t) / 5⌉ :=
        Int.ceil_pos.mpr (div_pos (by linarith) (by norm_num))
      omega

theorem sampleFrames_length (capture : ℚ → String) (duration t : ℚ) :
    (sampleFrames capture duration t).length = (⌈(duration - t) / 5⌉).toNat :=
  sampleFrames_length_aux capture duration (⌈duration - t⌉).toNat t le_rfl

theorem sampleFrames_map_timestamp (capture : ℚ → String) (duration : ℚ) :
    ∀ (n k : ℕ), (sampleFrames capture duration (5 * (k : ℚ))).length = n →
      (sampleFrames capture duration (5 * (k : ℚ))).map Frame.timestamp =
        (List.range' k n).map (fun (j : ℕ) => 5 * (j : ℤ)) := by
  intro n
  induction n with
  | zero =>
    intro k h
    rw [List.length_eq_zero] at h
    rw [h]
    simp
  | succ n ih =>
    intro k h
    by_cases hc : (5 * (k : ℚ)) ≥ duration
    · rw [sampleFrames_stop capture duration _ hc] at h
      simp at h
    · rw [sampleFrames_step capture duration _ hc] at h ⊢
      rw [List.length_cons] at h
      have h' : (sampleFrames capture duration (5 * (k : ℚ) + 5)).length = n := by omega
      have e5 : 5 * (k : ℚ) + 5 = 5 * ((k + 1 : ℕ) : ℚ) := by push_cast; ring
      rw [e5] at h'
      rw [List.map_cons, e5, ih (k + 1) h']
      have ht : ⌊5 * (k : ℚ)⌋ = (5 * k : ℤ) := by
        rw [show (5 * (k : ℚ)) = ((5 * (k : ℕ) : ℤ) : ℚ) by push_cast; ring, Int.floor_intCast]
      rw [List.range'_succ]
      simp [ht]

/-! ### Claims about the sampler and the audio extractor -/

/-- Claim C6: the sampler's timestamps are exactly `0, 5, 10, ...` — sampled
at the fixed 5-second interval starting from time 0, one per target time
strictly below the duration (so the list has `⌈duration/5⌉` entries and stops
exactly when the next target time would reach the duration); they are strictly
increasing, and every timestamp is strictly below the source duration. -/
theorem claim6_sampler_contract (capture : ℚ → String) (duration : ℚ) :
    (sampleFrames capture duration 0).map Frame.timestamp =
      (List.range (⌈duration / 5⌉).toNat).map (fun (j : ℕ) => 5 * (j : ℤ)) ∧
    ((sampleFrames capture duration 0).map Frame.timestamp).Pairwise (· < ·) ∧
    (∀ f ∈ sampleFrames capture duration 0, (f.timestamp : ℚ) < duration) := by
  have key := sampleFrames_map_timestamp capture duration
    ((sampleFrames capture duration (5 * ((0 : ℕ) : ℚ))).length) 0 rfl
  rw [show (5 * ((0 : ℕ) : ℚ)) = 0 by norm_num] at key
  have hlen : (sampleFrames capture duration 0).length = (⌈duration / 5⌉).toNat := by
    rw [sampleFrames_length]
    norm_num
  have hmap : (sampleFrames capture duration 0).map Frame.timestamp =
      (List.range (⌈duration / 5⌉).toNat).map (fun (j : ℕ) => 5 * (j : ℤ)) := by
    rw [key, hlen, List.range_eq_range']
  refine ⟨hmap, ?_, ?_⟩
  · rw [hmap]
    exact List.Pairwise.map _ (fun a b hab => by omega) (List.pairwise_lt_range _)
  · intro f hf
    have hmem : f.timestamp ∈ (sampleFrames capture duration 0).map Frame.timestamp :=
      List.mem_map_of_mem _ hf
    rw [hmap] at hmem
    obtain ⟨j, hj, he⟩ := List.mem_map.mp hmem
    rw [List.mem_range] at hj
    have hjz : (j : ℤ) < ⌈duration / 5⌉ := by omega
    have h1 : (j : ℤ) ≤ ⌈duration / 5⌉ - 1 := by omega
    have h2 : ((j : ℚ)) ≤ ((⌈duration / 5⌉ : ℤ) : ℚ) - 1 := by exact_mod_cast h1
    have h3 := Int.ceil_lt_add_one (duration / 5)
    have hlt : (j : ℚ) < duration / 5 := by linarith
    rw [← he]
    push_cast
    linarith

/-- Claim C7 counterexample: the sampler itself enforces no 20-frame cap — a
101-second video yields 21 frames straight from `sampleFrames`. -/
theorem claim7_sampler_cap_counterexample :
    20 < (sampleFrames (fun _ => "img") 101 0).length := by
  rw [sampleFrames_length]
  have h : ⌈((101 : ℚ) - 0) / 5⌉ = 21 := by
    rw [Int.ceil_eq_iff]
    norm_num
  rw [h]
  norm_num

/-- Claim C7 amended: the sampler's output is capped at 20 frames only for
videos of duration at most 100 seconds (it has `⌈duration/5⌉` frames in
general); the fixed per-run cap of 20 is enforced downstream by the
coordinator, which classifies only the first 20 frames. -/
theorem claim7_sampler_cap_amended (capture : ℚ → String) (duration : ℚ)
    (h : duration ≤ 100) :
    (sampleFrames capture duration 0).length ≤ 20 := by
  rw [sampleFrames_length]
  have h1 : ⌈(duration - 0) / 5⌉ ≤ 20 := by
    apply Int.ceil_le.mpr
    push_cast
    linarith
  omega

/-- Witness for the amended C7 at a concrete 50-second video. -/
theorem claim7_sampler_cap_amended_witness :
    ((50 : ℚ) ≤ 100) ∧ (sampleFrames (fun _ => "img") 50 0).length ≤ 20 :=
  ⟨by norm_num, claim7_sampler_cap_amended (fun _ => "img") 50 (by norm_num)⟩

/-- Claim C8: stopping the recorder is idempotent: when both completion
signals fire, in either order (playback-end then timeout, or timeout then
playback-end), the second stop action is a no-op — the state is unchanged,
nothing is thrown, no second AudioPayload is emitted, and the promise is
resolved exactly once. -/
theorem claim8_double_stop_idempotent :
    (timeoutFallback (onEnded extractorStart)).payloadsEmitted = 1 ∧
    (onEnded (timeoutFallback extractorStart)).payloadsEmitted = 1 ∧
    timeoutFallback (onEnded extractorStart) = onEnded extractorStart ∧
    onEnded (timeoutFallback extractorStart) = timeoutFallback extractorStart ∧
    (onEnded extractorStart).recorder = RecorderState.inactive ∧
    (timeoutFallback extractorStart).recorder = RecorderState.inactive := by
  decide

end VideoPipeline
